import Mathlib

/-!
Shallow embedding of `src/server/api/event/event.controller.js` — the Event
resource controller (index / show / create / upsert / patch / destroy /
search / hosting / going / favorite) of an Express + Mongoose application.

JavaScript values are modelled by the inductive `JsValue`; the mutable
Express response object is modelled as a write log (`ResLog`): Express only
lets the first written response reach the client (later writes raise
"headers already sent"), so the effective response is the head of the log.
The external collaborators (the Mongoose document store and the
fast-json-patch library) are out of scope of the source; their operations
are modelled from the specification's description of their contracts and
each such definition is marked `Modelled from the spec:` in its doc string.
-/

namespace EventApi

/-- A JavaScript (JSON-like) value: the type of request bodies, stored
document fields and error payloads. -/
inductive JsValue where
  | vNull
  | vBool (b : Bool)
  | vNum (n : Int)
  | vStr (s : String)
  | vArr (elems : List JsValue)
  | vObj (fields : List (String × JsValue))
deriving Repr

/-- JavaScript truthiness of a value (`null`, `false`, `0` and `""` are
falsy; arrays and objects are always truthy). -/
def jsTruthy : JsValue → Bool
  | .vNull => false
  | .vBool b => b
  | .vNum n => n != 0
  | .vStr s => s != ""
  | .vArr _ => true
  | .vObj _ => true

/-- Truthiness of a possibly-absent value: `undefined` (absence) is falsy. -/
def optTruthy : Option JsValue → Bool
  | none => false
  | some v => jsTruthy v

/-- Property access `v[k]`: only objects carry named properties; on any
other value (including an array accessed with a non-index key such as
`"_id"`) the result is `undefined`, modelled as `none`. -/
def getProp : JsValue → String → Option JsValue
  | .vObj fields, k => (fields.find? (fun kv => kv.1 == k)).map (fun kv => kv.2)
  | _, _ => none

/-- `Reflect.deleteProperty(v, k)`: removes a top-level property of an
object; on every other value it is a no-op. -/
def deleteProp : JsValue → String → JsValue
  | .vObj fields, k => .vObj (fields.filter (fun kv => kv.1 != k))
  | v, _ => v

/-- The identifier-stripping step shared by `upsert` and `patch` in the
source: `if (req.body._id) { Reflect.deleteProperty(req.body, '_id'); }`.
The property is deleted only when its value is truthy. -/
def stripId (body : JsValue) : JsValue :=
  if optTruthy (getProp body "_id") then deleteProp body "_id" else body

/-- The field list of an object value (empty for any non-object). -/
def objFields : JsValue → List (String × JsValue)
  | .vObj fields => fields
  | _ => []

mutual

/-- Deep structural equality of JavaScript values, as used by the JSON-Patch
`test` operation.  (Object comparison is field-list structural here; the
claims under verification never exercise `test`.) -/
def beqJs : JsValue → JsValue → Bool
  | .vNull, .vNull => true
  | .vBool a, .vBool b => a == b
  | .vNum a, .vNum b => a == b
  | .vStr a, .vStr b => a == b
  | .vArr xs, .vArr ys => beqJsList xs ys
  | .vObj fs, .vObj gs => beqJsFields fs gs
  | _, _ => false

/-- Elementwise `beqJs` on lists. -/
def beqJsList : List JsValue → List JsValue → Bool
  | [], [] => true
  | x :: xs, y :: ys => beqJs x y && beqJsList xs ys
  | _, _ => false

/-- Elementwise `beqJs` on field lists. -/
def beqJsFields : List (String × JsValue) → List (String × JsValue) → Bool
  | [], [] => true
  | (k, v) :: xs, (l, w) :: ys => k == l && beqJs v w && beqJsFields xs ys
  | _, _ => false

end

/-- A stored Event document: its store-assigned identifier and its other
fields (the identifier is kept out of `fields`). -/
structure Doc where
  id : String
  fields : List (String × JsValue)
deriving Repr

/-- The Event collection of the document store. -/
abbrev Store := List Doc

/-- The JSON serialization of a stored document, `_id` first. -/
def docToJson (d : Doc) : JsValue :=
  .vObj (("_id", .vStr d.id) :: d.fields)

/-- A field of a stored document (other than `_id`). -/
def fieldOf (d : Doc) (k : String) : Option JsValue :=
  (d.fields.find? (fun kv => kv.1 == k)).map (fun kv => kv.2)

/-- Modelled from the spec: the store's fetch-by-identifier
(`Event.findById`); returns the document whose identifier matches, if any. -/
def findById (i : String) (s : Store) : Option Doc :=
  s.find? (fun d => d.id == i)

/-- A stored User document, the target of reference expansion. -/
structure User where
  id : String
  name : String
  imageUrl : String
deriving Repr

/-- The projection `{_id, name, imageUrl}` of a User used by `populate`. -/
def userJson (u : User) : JsValue :=
  .vObj [("_id", .vStr u.id), ("name", .vStr u.name), ("imageUrl", .vStr u.imageUrl)]

/-- Modelled from the spec: reference expansion (`populate`) of a single
stored User reference into the `{_id, name, imageUrl}` projection; a
dangling reference becomes `null`, a non-reference value is untouched. -/
def expandRef (users : List User) : JsValue → JsValue
  | .vStr uid =>
    match users.find? (fun u => u.id == uid) with
    | some u => userJson u
    | none => .vNull
  | v => v

/-- Modelled from the spec: `populate('host', ...)` — expand the `host`
field of a document. -/
def popHost (users : List User) (d : Doc) : Doc :=
  { d with fields := d.fields.map (fun kv =>
      if kv.1 == "host" then (kv.1, expandRef users kv.2) else kv) }

/-- Expansion of the `user` reference inside one participants entry. -/
def expandPartEntry (users : List User) : JsValue → JsValue
  | .vObj fs => .vObj (fs.map (fun kv =>
      if kv.1 == "user" then (kv.1, expandRef users kv.2) else kv))
  | v => v

/-- Modelled from the spec: `populate('participants.user', ...)` — expand
the `user` reference of every participants entry of a document. -/
def popParticipants (users : List User) (d : Doc) : Doc :=
  { d with fields := d.fields.map (fun kv =>
      if kv.1 == "participants" then
        (kv.1,
          match kv.2 with
          | .vArr xs => .vArr (xs.map (expandPartEntry users))
          | v => v)
      else kv) }

/-- One HTTP response write: a status code and an optional JSON body
(`res.status(c).end()` writes no body; `json` / `send` write one). -/
structure Response where
  status : Nat
  body : Option JsValue
deriving Repr

/-- The log of response writes attempted by one request.  Express delivers
only the first write; later writes fail with "headers already sent". -/
abbrev ResLog := List Response

/-- The response the client actually receives: the first write of the log. -/
def effectiveResp (log : ResLog) : Option Response :=
  log.head?

/-- The status the client actually receives. -/
def effectiveStatus (log : ResLog) : Option Nat :=
  (effectiveResp log).map (fun r => r.status)

/-- The JavaScript default-status idiom `statusCode = statusCode || d`
(an absent or zero argument falls back to the default). -/
def orDefaultStatus (c : Option Nat) (d : Nat) : Nat :=
  match c with
  | some n => if n == 0 then d else n
  | none => d

/-- `respondWithResult(res, statusCode)` from the source: given the entity
produced by the previous stage, write it as JSON with the given status
(default 200) when it is truthy; otherwise write nothing. -/
def respondWithResult (statusCode : Option Nat) (entity : Option JsValue)
    (log : ResLog) : ResLog :=
  match entity with
  | some e =>
    if jsTruthy e then log ++ [⟨orDefaultStatus statusCode 200, some e⟩]
    else log
  | none => log

/-- `handleEntityNotFound(res)` from the source: when the fetched entity is
absent, write a 404 with empty body and pass `null` on; an entity that is
present is a document object, hence truthy, and passes through unchanged. -/
def handleEntityNotFound (entity : Option Doc) (log : ResLog) :
    Option Doc × ResLog :=
  match entity with
  | some e => (some e, log)
  | none => (none, log ++ [⟨404, none⟩])

/-- `handleError(res, statusCode)` from the source: write the given status
(default 500) with the error value as received as the body. -/
def handleError (statusCode : Option Nat) (err : JsValue) (log : ResLog) :
    ResLog :=
  log ++ [⟨orDefaultStatus statusCode 500, some err⟩]

/-- `removeEntity(res)` from the source: when an entity was passed through,
delete it from the store (`entity.remove()`) and then write a 204 with no
body; when `null` was passed through, do nothing. -/
def removeEntity (entity : Option Doc) (log : ResLog) (s : Store) :
    ResLog × Store :=
  match entity with
  | some e => (log ++ [⟨204, none⟩], s.filter (fun d => d.id != e.id))
  | none => (log, s)

/-- Split a character list into `/`-separated segments. -/
def splitSegsAux (acc : List Char) : List Char → List String
  | [] => [String.mk acc.reverse]
  | c :: rest =>
    if c == '/' then String.mk acc.reverse :: splitSegsAux [] rest
    else splitSegsAux (c :: acc) rest

/-- A JSON-Pointer path split into segments: `""` is the root, any other
path must start with `/`.  (The `~0`/`~1` escapes are not modelled; no
claim exercises them.) -/
def segsOf (path : String) : Option (List String) :=
  match path.data with
  | [] => some []
  | c :: rest =>
    if c == '/' then some (splitSegsAux [] rest)
    else none

/-- A segment read as an array index. -/
def parseIdx (k : String) : Option Nat :=
  if k.data.isEmpty then none
  else if k.data.all (fun c => c.isDigit) then
    some (k.data.foldl (fun acc c => acc * 10 + (c.toNat - 48)) 0)
  else none

/-- The value a JSON pointer resolves to inside a value, if any. -/
def getAt : JsValue → List String → Option JsValue
  | v, [] => some v
  | .vObj fs, k :: rest =>
    match (fs.find? (fun kv => kv.1 == k)).map (fun kv => kv.2) with
    | some child => getAt child rest
    | none => none
  | .vArr xs, k :: rest =>
    match parseIdx k with
    | some i =>
      match xs.get? i with
      | some child => getAt child rest
      | none => none
    | none => none
  | _, _ :: _ => none

/-- Replace the value at an existing pointer target (`replace` op); `none`
when the path is unresolvable. -/
def replaceAt : JsValue → List String → JsValue → Option JsValue
  | _, [], v => some v
  | .vObj fs, k :: rest, v =>
    match (fs.find? (fun kv => kv.1 == k)).map (fun kv => kv.2) with
    | some child =>
      match replaceAt child rest v with
      | some child' =>
        some (.vObj (fs.map (fun kv => if kv.1 == k then (kv.1, child') else kv)))
      | none => none
    | none => none
  | .vArr xs, k :: rest, v =>
    match parseIdx k with
    | some i =>
      match xs.get? i with
      | some child =>
        match replaceAt child rest v with
        | some child' => some (.vArr (xs.set i child'))
        | none => none
      | none => none
    | none => none
  | _, _ :: _, _ => none

/-- Add a value at a pointer (`add` op): insert-or-replace an object key,
insert into an array at an index up to its length or append with `-`;
`none` when the path is unresolvable. -/
def addAt : JsValue → List String → JsValue → Option JsValue
  | _, [], v => some v
  | .vObj fs, [k], v =>
    if (fs.find? (fun kv => kv.1 == k)).isSome then
      some (.vObj (fs.map (fun kv => if kv.1 == k then (kv.1, v) else kv)))
    else
      some (.vObj (fs ++ [(k, v)]))
  | .vArr xs, [k], v =>
    if k == "-" then some (.vArr (xs ++ [v]))
    else
      match parseIdx k with
      | some i =>
        if i ≤ xs.length then some (.vArr (xs.take i ++ v :: xs.drop i))
        else none
      | none => none
  | .vObj fs, k :: k' :: rest, v =>
    match (fs.find? (fun kv => kv.1 == k)).map (fun kv => kv.2) with
    | some child =>
      match addAt child (k' :: rest) v with
      | some child' =>
        some (.vObj (fs.map (fun kv => if kv.1 == k then (kv.1, child') else kv)))
      | none => none
    | none => none
  | .vArr xs, k :: k' :: rest, v =>
    match parseIdx k with
    | some i =>
      match xs.get? i with
      | some child =>
        match addAt child (k' :: rest) v with
        | some child' => some (.vArr (xs.set i child'))
        | none => none
      | none => none
    | none => none
  | _, _ :: _, _ => none

/-- Remove the value at an existing pointer target (`remove` op); `none`
when the path is unresolvable (including the root). -/
def removeAt : JsValue → List String → Option JsValue
  | _, [] => none
  | .vObj fs, [k] =>
    if (fs.find? (fun kv => kv.1 == k)).isSome then
      some (.vObj (fs.filter (fun kv => kv.1 != k)))
    else none
  | .vArr xs, [k] =>
    match parseIdx k with
    | some i =>
      if i < xs.length then some (.vArr (xs.take i ++ xs.drop (i + 1)))
      else none
    | none => none
  | .vObj fs, k :: k' :: rest =>
    match (fs.find? (fun kv => kv.1 == k)).map (fun kv => kv.2) with
    | some child =>
      match removeAt child (k' :: rest) with
      | some child' =>
        some (.vObj (fs.map (fun kv => if kv.1 == k then (kv.1, child') else kv)))
      | none => none
    | none => none
  | .vArr xs, k :: k' :: rest =>
    match parseIdx k with
    | some i =>
      match xs.get? i with
      | some child =>
        match removeAt child (k' :: rest) with
        | some child' => some (.vArr (xs.set i child'))
        | none => none
      | none => none
    | none => none
  | _, _ :: _ => none

/-- Modelled from the spec: one validated JSON-Patch operation applied to a
value.  The operation object must carry a string `op` among
add/remove/replace/move/copy/test and a string `path`; `add`, `replace` and
`test` require a `value`, `move` and `copy` a `from`.  Any violation, or an
unresolvable path, fails the operation with an error value. -/
def applyOp (tree : JsValue) (opv : JsValue) : Except JsValue JsValue :=
  match getProp opv "op" with
  | some (.vStr op) =>
    match getProp opv "path" with
    | some (.vStr path) =>
      match segsOf path with
      | none => .error (.vStr "OPERATION_PATH_INVALID")
      | some segs =>
        if op == "replace" then
          match getProp opv "value" with
          | some v =>
            match replaceAt tree segs v with
            | some t => .ok t
            | none => .error (.vStr "OPERATION_PATH_UNRESOLVABLE")
          | none => .error (.vStr "OPERATION_VALUE_REQUIRED")
        else if op == "add" then
          match getProp opv "value" with
          | some v =>
            match addAt tree segs v with
            | some t => .ok t
            | none => .error (.vStr "OPERATION_PATH_UNRESOLVABLE")
          | none => .error (.vStr "OPERATION_VALUE_REQUIRED")
        else if op == "remove" then
          match removeAt tree segs with
          | some t => .ok t
          | none => .error (.vStr "OPERATION_PATH_UNRESOLVABLE")
        else if op == "test" then
          match getProp opv "value" with
          | some v =>
            match getAt tree segs with
            | some w => if beqJs w v then .ok tree else .error (.vStr "TEST_OPERATION_FAILED")
            | none => .error (.vStr "OPERATION_PATH_UNRESOLVABLE")
          | none => .error (.vStr "OPERATION_VALUE_REQUIRED")
        else if op == "move" || op == "copy" then
          match getProp opv "from" with
          | some (.vStr fromPath) =>
            match segsOf fromPath with
            | none => .error (.vStr "OPERATION_FROM_INVALID")
            | some fsegs =>
              match getAt tree fsegs with
              | some v =>
                let afterTake :=
                  if op == "move" then removeAt tree fsegs else some tree
                match afterTake with
                | some t1 =>
                  match addAt t1 segs v with
                  | some t2 => .ok t2
                  | none => .error (.vStr "OPERATION_PATH_UNRESOLVABLE")
                | none => .error (.vStr "OPERATION_FROM_UNRESOLVABLE")
              | none => .error (.vStr "OPERATION_FROM_UNRESOLVABLE")
          | _ => .error (.vStr "OPERATION_FROM_INVALID")
        else .error (.vStr "OPERATION_OP_INVALID")
    | _ => .error (.vStr "OPERATION_PATH_INVALID")
  | _ => .error (.vStr "OPERATION_OP_INVALID")

/-- Sequential application of a list of patch operations, aborting on the
first failure (no partial result is exposed). -/
def applyOps : JsValue → List JsValue → Except JsValue JsValue
  | tree, [] => .ok tree
  | tree, op :: rest =>
    match applyOp tree op with
    | .ok tree' => applyOps tree' rest
    | .error err => .error err

/-- Modelled from the spec: `jsonpatch.apply(tree, patches, /*validate*/ true)`
of the external JSON-Patch library — the patch payload must be an ordered
list of operations (anything else fails validation), which is then applied
sequentially with per-operation validation. -/
def jsonpatchApply (tree : JsValue) (patches : JsValue) : Except JsValue JsValue :=
  match patches with
  | .vArr ops => applyOps tree ops
  | _ => .error (.vStr "SEQUENCE_NOT_AN_ARRAY")

/-- Modelled from the spec: `entity.save()` — persist the mutated entity at
its identifier.  The store's identifier is immutable once assigned
(spec §3): a save whose in-memory `_id` no longer equals the fetched
document's identifier is rejected by the store. -/
def saveEntity (origId : String) (entityJson : JsValue) (s : Store) :
    Except JsValue Store :=
  match getProp entityJson "_id" with
  | some (.vStr i) =>
    if i == origId then
      .ok (s.map (fun d =>
        if d.id == origId then
          ⟨origId, (objFields entityJson).filter (fun kv => kv.1 != "_id")⟩
        else d))
    else .error (.vStr "MOD_ID_IMMUTABLE")
  | _ => .error (.vStr "MOD_ID_IMMUTABLE")

/-- `patchUpdates(patches)` from the source: apply the patch payload to the
fetched entity with validation; on any exception reject without persisting,
otherwise persist via `entity.save()`.  When the previous stage passed
`null` through (the 404 path), applying or saving throws a `TypeError`,
which also surfaces as a rejection. -/
def patchUpdates (patches : JsValue) (entity : Option Doc) (s : Store) :
    Except JsValue (Option JsValue × Store) :=
  match entity with
  | none => .error (.vStr "TypeError")
  | some e =>
    match jsonpatchApply (docToJson e) patches with
    | .error err => .error err
    | .ok e1 =>
      match saveEntity e.id e1 s with
      | .error err => .error err
      | .ok s1 => .ok (some e1, s1)

/-- The non-`_id` fields an update payload contributes to a document (an
update cannot set the immutable identifier, so a stray `_id` field of the
payload is ignored by the store; a non-object payload contributes nothing). -/
def updateFields (body : JsValue) : List (String × JsValue) :=
  (objFields body).filter (fun kv => kv.1 != "_id")

/-- Modelled from the spec: `Event.findOneAndUpdate({_id: i}, body,
{new: true, upsert: true, setDefaultsOnInsert: true, runValidators: true})`
— replace-or-insert the document keyed by the filtered identifier and
return the resulting document. -/
def findOneAndUpdate (i : String) (body : JsValue) (s : Store) : Doc × Store :=
  let d : Doc := ⟨i, updateFields body⟩
  if (findById i s).isSome then
    (d, s.map (fun x => if x.id == i then d else x))
  else
    (d, s ++ [d])

/-- Modelled from the spec: `Event.create(body)` — insert a new document
built from the payload as submitted: a client-supplied string `_id` becomes
the document's identifier, otherwise the store assigns the fresh one. -/
def storeCreate (body : JsValue) (freshId : String) (s : Store) : Doc × Store :=
  let i : String :=
    match getProp body "_id" with
    | some (.vStr x) => x
    | _ => freshId
  let d : Doc := ⟨i, updateFields body⟩
  (d, s ++ [d])

/-- Lower-cased character list of a string (ASCII case folding). -/
def lowerChars (s : String) : List Char :=
  s.data.map Char.toLower

/-- Whether the second character list starts with the first. -/
def leadsWith : List Char → List Char → Bool
  | [], _ => true
  | _ :: _, [] => false
  | a :: as, b :: bs => a == b && leadsWith as bs

/-- Whether the second character list contains the first as a contiguous
subsequence. -/
def containsSeq (needle : List Char) : List Char → Bool
  | [] => needle.isEmpty
  | b :: tl => leadsWith needle (b :: tl) || containsSeq needle tl

/-- Case-insensitive containment of `needle` in `hay`, the meaning of the
source's `{ $regex: new RegExp(text, 'i') }` for a metacharacter-free text
(modelled from the spec: "case-insensitive substring (regular-expression
containment, not exact match)"). -/
def ciContains (hay needle : String) : Bool :=
  containsSeq (lowerChars needle) (lowerChars hay)

/-- The `search` query predicate: the document's `name` field is a string
containing the text case-insensitively. -/
def nameMatches (text : String) (d : Doc) : Bool :=
  match fieldOf d "name" with
  | some (.vStr nm) => ciContains nm text
  | _ => false

/-- The `hosting` query predicate: `host` equals the given identifier. -/
def hostMatches (h : String) (d : Doc) : Bool :=
  match fieldOf d "host" with
  | some (.vStr x) => x == h
  | _ => false

/-- The `going` query predicate: some participants entry's `user` equals
the given identifier. -/
def goingMatches (pid : String) (d : Doc) : Bool :=
  match fieldOf d "participants" with
  | some (.vArr xs) =>
    xs.any (fun x =>
      match getProp x "user" with
      | some (.vStr u) => u == pid
      | _ => false)
  | _ => false

/-- The `favorite` query predicate: the `favoritesBy` array contains the
given identifier. -/
def favoriteMatches (uid : String) (d : Doc) : Bool :=
  match fieldOf d "favoritesBy" with
  | some (.vArr xs) =>
    xs.any (fun x =>
      match x with
      | .vStr u => u == uid
      | _ => false)
  | _ => false

/-- An incoming HTTP request: the route parameters the nine handlers read
(`req.params.id` / `text` / `host` / `participant` / `user`) and the parsed
JSON body. -/
structure Request where
  id : String
  text : String
  host : String
  participant : String
  user : String
  body : JsValue
deriving Repr

/-- The update payload `upsert` passes to the store: the request body after
the identifier-stripping step. -/
def upsertUpdateBody (req : Request) : JsValue :=
  stripId req.body

/-- The patch payload `patch` passes to the patch applier: the request body
after the identifier-stripping step. -/
def patchApplierInput (req : Request) : JsValue :=
  stripId req.body

/-- `index`: fetch all events, expand `host`, respond 200 with the array. -/
def index (_req : Request) (users : List User) (s : Store) : ResLog × Store :=
  let docs := (s.map (popHost users)).map docToJson
  (respondWithResult none (some (.vArr docs)) [], s)

/-- `show`: fetch one event by id, expand `host` and `participants.user`,
404 when absent, else respond 200 with the document. -/
def show' (req : Request) (users : List User) (s : Store) : ResLog × Store :=
  let fetched := (findById req.id s).map (fun d => popParticipants users (popHost users d))
  let step1 := handleEntityNotFound fetched []
  (respondWithResult none (step1.1.map docToJson) step1.2, s)

/-- `create`: insert the request body as a new event, respond 201. -/
def create (req : Request) (freshId : String) (s : Store) : ResLog × Store :=
  let r := storeCreate req.body freshId s
  (respondWithResult (some 201) (some (docToJson r.1)) [], r.2)

/-- `upsert`: strip a truthy client-supplied `_id` from the body, then
replace-or-insert the document at the URL identifier, respond 200. -/
def upsert (req : Request) (s : Store) : ResLog × Store :=
  let r := findOneAndUpdate req.id (upsertUpdateBody req) s
  (respondWithResult none (some (docToJson r.1)) [], r.2)

/-- `patch`: strip a truthy client-supplied `_id` from the body, fetch the
entity (404 when absent), apply the patch payload and persist, respond 200
with the saved entity; any rejection goes to `handleError`. -/
def patch (req : Request) (s : Store) : ResLog × Store :=
  let step1 := handleEntityNotFound (findById req.id s) []
  match patchUpdates (patchApplierInput req) step1.1 s with
  | .error err => (handleError none err step1.2, s)
  | .ok (e2, s2) => (respondWithResult none e2 step1.2, s2)

/-- `destroy`: fetch the entity (404 when absent), delete it from the store
and respond 204 with no body. -/
def destroy (req : Request) (s : Store) : ResLog × Store :=
  let step1 := handleEntityNotFound (findById req.id s) []
  removeEntity step1.1 step1.2 s

/-- `search`: fetch the events whose name matches the text case-insensitively,
expand `host`, respond 200 with the (possibly empty) array. -/
def search (req : Request) (users : List User) (s : Store) : ResLog × Store :=
  let docs := ((s.filter (nameMatches req.text)).map (popHost users)).map docToJson
  (respondWithResult none (some (.vArr docs)) [], s)

/-- `hosting`: fetch the events hosted by the given user, expand `host`,
respond 200 with the array. -/
def hosting (req : Request) (users : List User) (s : Store) : ResLog × Store :=
  let docs := ((s.filter (hostMatches req.host)).map (popHost users)).map docToJson
  (respondWithResult none (some (.vArr docs)) [], s)

/-- `going`: fetch the events with the given participant, expand `host`,
respond 200 with the array. -/
def going (req : Request) (users : List User) (s : Store) : ResLog × Store :=
  let docs := ((s.filter (goingMatches req.participant)).map (popHost users)).map docToJson
  (respondWithResult none (some (.vArr docs)) [], s)

/-- `favorite`: fetch the events favorited by the given user, expand
`host`, respond 200 with the array. -/
def favorite (req : Request) (users : List User) (s : Store) : ResLog × Store :=
  let docs := ((s.filter (favoriteMatches req.user)).map (popHost users)).map docToJson
  (respondWithResult none (some (.vArr docs)) [], s)

/-! ### Store lemmas -/

theorem findById_some_id {i : String} {s : Store} {d : Doc}
    (h : findById i s = some d) : d.id = i := by
  have := List.find?_some h
  simpa [beq_iff_eq] using this

theorem findById_map_replace_ne {i j : String} {d : Doc} (s : Store)
    (hne : j ≠ i) (hd : d.id = i) :
    findById j (s.map (fun x => if x.id == i then d else x)) = findById j s := by
  have hdj : ¬ (d.id == j) = true := by
    simp only [beq_iff_eq, hd]
    exact fun h => hne h.symm
  induction s with
  | nil => rfl
  | cons x xs ih =>
    unfold findById at *
    simp only [List.map_cons]
    by_cases hx : (x.id == i) = true
    · rw [if_pos hx]
      have hxj : ¬ (x.id == j) = true := by
        simp only [beq_iff_eq] at hx ⊢
        rw [hx]
        exact fun h => hne h.symm
      rw [@List.find?_cons_of_neg _ (fun d => d.id == j) d _ hdj,
        @List.find?_cons_of_neg _ (fun d => d.id == j) x _ hxj]
      exact ih
    · rw [if_neg hx]
      by_cases hxj : (x.id == j) = true
      · rw [@List.find?_cons_of_pos _ (fun d => d.id == j) x _ hxj,
          @List.find?_cons_of_pos _ (fun d => d.id == j) x _ hxj]
      · rw [@List.find?_cons_of_neg _ (fun d => d.id == j) x _ hxj,
          @List.find?_cons_of_neg _ (fun d => d.id == j) x _ hxj]
        exact ih

theorem findById_map_replace_self {i : String} {d : Doc} (s : Store)
    (hd : d.id = i) (hex : (findById i s).isSome) :
    findById i (s.map (fun x => if x.id == i then d else x)) = some d := by
  induction s with
  | nil => simp [findById] at hex
  | cons x xs ih =>
    unfold findById at *
    simp only [List.map_cons]
    by_cases hx : (x.id == i) = true
    · rw [if_pos hx]
      exact @List.find?_cons_of_pos _ (fun d => d.id == i) d _ (by simp [beq_iff_eq, hd])
    · rw [if_neg hx]
      rw [@List.find?_cons_of_neg _ (fun d => d.id == i) x _ hx] at hex
      rw [@List.find?_cons_of_neg _ (fun d => d.id == i) x _ hx]
      exact ih hex

theorem findById_append_ne {j : String} {d : Doc} (s : Store)
    (hne : d.id ≠ j) : findById j (s ++ [d]) = findById j s := by
  unfold findById
  rw [List.find?_append]
  have : List.find? (fun x => x.id == j) [d] = none := by
    simp [List.find?, beq_eq_false_iff_ne.mpr hne]
  rw [this]
  cases List.find? (fun x => x.id == j) s <;> rfl

theorem findById_append_self {i : String} {d : Doc} (s : Store)
    (hnone : findById i s = none) (hd : d.id = i) :
    findById i (s ++ [d]) = some d := by
  unfold findById at *
  rw [List.find?_append, hnone]
  simp [List.find?, hd]

theorem findById_filter_ne_self (i : String) (s : Store) :
    findById i (s.filter (fun x => x.id != i)) = none := by
  unfold findById
  rw [List.find?_filter]
  rw [List.find?_eq_none]
  intro x _
  simp only [bne_iff_ne, beq_iff_eq, decide_eq_true_eq, not_and]
  exact fun h h' => h h'

theorem findById_filter_ne {i j : String} (s : Store) (hne : j ≠ i) :
    findById j (s.filter (fun x => x.id != i)) = findById j s := by
  induction s with
  | nil => rfl
  | cons x xs ih =>
    unfold findById at *
    simp only [List.filter_cons]
    by_cases hx : (x.id != i) = true
    · rw [if_pos hx]
      by_cases hxj : (x.id == j) = true
      · rw [@List.find?_cons_of_pos _ (fun d => d.id == j) x _ hxj,
          @List.find?_cons_of_pos _ (fun d => d.id == j) x _ hxj]
      · rw [@List.find?_cons_of_neg _ (fun d => d.id == j) x _ hxj,
          @List.find?_cons_of_neg _ (fun d => d.id == j) x _ hxj]
        exact ih
    · rw [if_neg hx]
      have hxi : x.id = i := by
        simpa [bne_iff_ne] using hx
      have hxj : ¬ (x.id == j) = true := by
        simp only [beq_iff_eq, hxi]
        exact fun h => hne h.symm
      rw [@List.find?_cons_of_neg _ (fun d => d.id == j) x _ hxj]
      exact ih

theorem find?_key_filter_ne {k : String} (l : List (String × JsValue))
    (hne : k ≠ "_id") :
    List.find? (fun kv => kv.1 == k) (l.filter (fun kv => kv.1 != "_id")) =
      List.find? (fun kv => kv.1 == k) l := by
  induction l with
  | nil => rfl
  | cons kv l ih =>
    simp only [List.filter_cons]
    by_cases h1 : (kv.1 != "_id") = true
    · rw [if_pos h1]
      by_cases h2 : (kv.1 == k) = true
      · rw [@List.find?_cons_of_pos _ (fun kv => kv.1 == k) kv _ h2,
          @List.find?_cons_of_pos _ (fun kv => kv.1 == k) kv _ h2]
      · rw [@List.find?_cons_of_neg _ (fun kv => kv.1 == k) kv _ h2,
          @List.find?_cons_of_neg _ (fun kv => kv.1 == k) kv _ h2]
        exact ih
    · rw [if_neg h1]
      have hk : kv.1 = "_id" := by
        simpa [bne_iff_ne] using h1
      have h2 : ¬ (kv.1 == k) = true := by
        simp only [beq_iff_eq, hk]
        exact fun h => hne h.symm
      rw [@List.find?_cons_of_neg _ (fun kv => kv.1 == k) kv _ h2]
      exact ih

/-! ### Further helper lemmas -/

theorem find?_key_filter_self (k : String) (l : List (String × JsValue)) :
    List.find? (fun kv => kv.1 == k) (l.filter (fun kv => kv.1 != k)) = none := by
  rw [List.find?_eq_none]
  intro kv hmem
  have := List.of_mem_filter hmem
  simpa [bne_iff_ne, beq_iff_eq] using this

theorem getProp_deleteProp_id {fs : List (String × JsValue)} :
    getProp (deleteProp (.vObj fs) "_id") "_id" = none := by
  simp only [deleteProp, getProp, find?_key_filter_self, Option.map_none']

theorem getProp_some_obj {body : JsValue} {k : String} {v : JsValue}
    (h : getProp body k = some v) : ∃ fs, body = .vObj fs := by
  cases body with
  | vObj fs => exact ⟨fs, rfl⟩
  | vNull => simp [getProp] at h
  | vBool b => simp [getProp] at h
  | vNum n => simp [getProp] at h
  | vStr s => simp [getProp] at h
  | vArr xs => simp [getProp] at h

/-! ### Concrete sample data -/

/-- A stored event with identifier `A` and name `old`. -/
def docA : Doc := ⟨"A", [("name", .vStr "old")]⟩

/-- A one-document store holding `docA`. -/
def storeA : Store := [docA]

/-- A request for identifier `A` whose body smuggles `_id: "other"`. -/
def reqOther : Request :=
  ⟨"A", "", "", "", "", .vObj [("_id", .vStr "other"), ("name", .vStr "x")]⟩

/-- A request for an identifier absent from `storeA`. -/
def reqMissing : Request := ⟨"B", "", "", "", "", .vArr []⟩

/-- A request for identifier `A` with an empty body. -/
def reqA : Request := ⟨"A", "", "", "", "", .vNull⟩

/-- A patch request whose single operation has an unresolvable path. -/
def reqBadPatch : Request :=
  ⟨"A", "", "", "", "",
    .vArr [.vObj [("op", .vStr "replace"), ("path", .vStr "/missing"), ("value", .vNum 1)]]⟩

/-- A patch operation that targets the identifier field. -/
def opRenameId : JsValue :=
  .vObj [("op", .vStr "replace"), ("path", .vStr "/_id"), ("value", .vStr "other")]

/-- A patch request whose operation list targets `/_id`. -/
def reqRenameId : Request := ⟨"A", "", "", "", "", .vArr [opRenameId]⟩

/-- A stored event named "Launch Party". -/
def launchDoc : Doc := ⟨"e1", [("name", .vStr "Launch Party")]⟩

/-- The name of a fetched document, as a plain string (empty when absent or
not a string). -/
def nameOf (d : Option Doc) : String :=
  match d with
  | some d =>
    match fieldOf d "name" with
    | some (.vStr s) => s
    | _ => ""
  | none => ""

/-! ### Claims -/

/-- C7: for every search text and store state, `search` responds 200 with
the (possibly empty) array of exactly those events whose name contains the
text as a case-insensitive match (regular-expression containment, not exact
match); "LAUNCH" and "party" match a stored "Launch Party", "xyz" does not. -/
theorem c7_search_ci_containment :
    (∀ (req : Request) (users : List User) (s : Store),
        search req users s =
          ([⟨200, some (.vArr (((s.filter (nameMatches req.text)).map
              (popHost users)).map docToJson))⟩], s)) ∧
    nameMatches "LAUNCH" launchDoc = true ∧
    nameMatches "party" launchDoc = true ∧
    nameMatches "xyz" launchDoc = false ∧
    (∀ (req : Request) (users : List User),
        search req users [] = ([⟨200, some (.vArr [])⟩], [])) := by
  refine ⟨fun req users s => rfl, by decide, by decide, by decide, fun req users => rfl⟩

/-- C8: the identifier-stripping step in `patch` deletes only a top-level
`_id` property of an object body; on an array body (the patch-operation
list) it is a no-op, so an operation targeting `/_id` is passed unmodified
to the patch applier. -/
theorem c8_strip_noop_on_array :
    (∀ (ops : List JsValue), stripId (.vArr ops) = .vArr ops) ∧
    (∀ (req : Request) (ops : List JsValue),
        req.body = .vArr ops → patchApplierInput req = req.body) ∧
    (∀ (body : JsValue), stripId body ≠ body → ∃ fs, body = .vObj fs) ∧
    (∀ (fs : List (String × JsValue)) (k : String), k ≠ "_id" →
        getProp (stripId (.vObj fs)) k = getProp (.vObj fs) k) := by
  refine ⟨fun ops => rfl, ?_, ?_, ?_⟩
  · intro req ops hbody
    simp [patchApplierInput, stripId, hbody, getProp, optTruthy]
  · intro body hne
    cases body with
    | vObj fs => exact ⟨fs, rfl⟩
    | vNull => exact absurd rfl hne
    | vBool b => exact absurd rfl hne
    | vNum n => exact absurd rfl hne
    | vStr s => exact absurd rfl hne
    | vArr xs => exact absurd rfl hne
  · intro fs k hk
    unfold stripId
    by_cases h : optTruthy (getProp (.vObj fs) "_id") = true
    · rw [if_pos h]
      simp only [deleteProp, getProp]
      rw [find?_key_filter_ne fs hk]
    · rw [if_neg h]

/-- C9: in `upsert` and `patch` the client-supplied `_id` is deleted only
when truthy; any body whose `_id` is falsy (empty string, 0, false, null)
is passed on to the update operation unchanged, `_id` included. -/
theorem c9_strip_only_truthy :
    (∀ (body : JsValue), optTruthy (getProp body "_id") = false →
        stripId body = body ∧ getProp (stripId body) "_id" = getProp body "_id") ∧
    (∀ (req : Request), optTruthy (getProp req.body "_id") = false →
        upsertUpdateBody req = req.body ∧ patchApplierInput req = req.body) ∧
    (∀ (body : JsValue), optTruthy (getProp body "_id") = true →
        getProp (stripId body) "_id" = none) := by
  have base : ∀ (body : JsValue), optTruthy (getProp body "_id") = false →
      stripId body = body := by
    intro body h
    simp [stripId, h]
  refine ⟨?_, ?_, ?_⟩
  · intro body h
    exact ⟨base body h, by rw [base body h]⟩
  · intro req h
    exact ⟨base req.body h, base req.body h⟩
  · intro body h
    have hsome : ∃ v, getProp body "_id" = some v := by
      cases hg : getProp body "_id" with
      | some v => exact ⟨v, rfl⟩
      | none => rw [hg] at h; simp [optTruthy] at h
    obtain ⟨v, hv⟩ := hsome
    obtain ⟨fs, hfs⟩ := getProp_some_obj hv
    rw [hfs]
    unfold stripId
    rw [hfs] at h
    rw [if_pos h]
    exact getProp_deleteProp_id

/-- C9 witness: a body whose `_id` is the empty string (falsy) keeps its
`_id` on the way to the update operation; likewise for 0, false and null. -/
theorem c9_witness :
    (stripId (.vObj [("_id", .vStr "")]) = .vObj [("_id", .vStr "")]) ∧
    (stripId (.vObj [("_id", .vNum 0)]) = .vObj [("_id", .vNum 0)]) ∧
    (stripId (.vObj [("_id", .vBool false)]) = .vObj [("_id", .vBool false)]) ∧
    (stripId (.vObj [("_id", .vNull)]) = .vObj [("_id", .vNull)]) ∧
    getProp (stripId (.vObj [("_id", .vStr "")])) "_id" = some (.vStr "") :=
  ⟨(c9_strip_only_truthy.1 (.vObj [("_id", .vStr "")]) (by decide)).1,
   (c9_strip_only_truthy.1 (.vObj [("_id", .vNum 0)]) (by decide)).1,
   (c9_strip_only_truthy.1 (.vObj [("_id", .vBool false)]) (by decide)).1,
   (c9_strip_only_truthy.1 (.vObj [("_id", .vNull)]) (by decide)).1,
   (c9_strip_only_truthy.1 (.vObj [("_id", .vStr "")]) (by decide)).2⟩

/-- C8 witness: a patch body that is an operation list targeting `/_id`
reaches the patch applier unmodified. -/
theorem c8_witness :
    patchApplierInput reqRenameId = reqRenameId.body ∧
    stripId (.vArr [opRenameId]) = .vArr [opRenameId] :=
  ⟨c8_strip_noop_on_array.2.1 reqRenameId [opRenameId] rfl,
   c8_strip_noop_on_array.1 [opRenameId]⟩

/-- C2: when applying the patch operations to the fetched entity fails
validation, `patch` responds 500 with that error and the stored document
is left unchanged — the persist step is never invoked after a failed
application. -/
theorem c2_failed_patch_atomic (req : Request) (s : Store) (e : Doc)
    (err : JsValue)
    (hfind : findById req.id s = some e)
    (happly : jsonpatchApply (docToJson e) (patchApplierInput req) = .error err) :
    patchUpdates (patchApplierInput req) (some e) s = .error err ∧
    (patch req s).2 = s ∧
    effectiveResp (patch req s).1 = some ⟨500, some err⟩ := by
  have hpu : patchUpdates (patchApplierInput req) (some e) s = .error err := by
    simp [patchUpdates, happly]
  refine ⟨hpu, ?_, ?_⟩
  · unfold patch
    rw [hfind]
    simp [handleEntityNotFound, hpu]
  · unfold patch
    rw [hfind]
    simp [handleEntityNotFound, hpu, handleError, effectiveResp, orDefaultStatus]

/-- C2 witness: a replace operation on a non-existent path fails validation;
the store is untouched and the response is a 500 carrying that error. -/
theorem c2_witness :
    patchUpdates (patchApplierInput reqBadPatch) (some docA) storeA =
      .error (.vStr "OPERATION_PATH_UNRESOLVABLE") ∧
    (patch reqBadPatch storeA).2 = storeA ∧
    effectiveResp (patch reqBadPatch storeA).1 =
      some ⟨500, some (.vStr "OPERATION_PATH_UNRESOLVABLE")⟩ :=
  c2_failed_patch_atomic reqBadPatch storeA docA
    (.vStr "OPERATION_PATH_UNRESOLVABLE") (by rfl) (by rfl)

/-- C3: for every identifier with no matching document, `show`, `patch` and
`destroy` each deliver a 404 with empty body, and no later pipeline stage
takes effect: the store is unchanged and nothing else reaches the client. -/
theorem c3_not_found_404 (req : Request) (users : List User) (s : Store)
    (h : findById req.id s = none) :
    effectiveResp (show' req users s).1 = some ⟨404, none⟩ ∧
    (show' req users s).2 = s ∧
    effectiveResp (patch req s).1 = some ⟨404, none⟩ ∧
    (patch req s).2 = s ∧
    effectiveResp (destroy req s).1 = some ⟨404, none⟩ ∧
    (destroy req s).2 = s := by
  refine ⟨?_, rfl, ?_, ?_, ?_, ?_⟩
  · unfold show'
    rw [h]
    simp [handleEntityNotFound, respondWithResult, effectiveResp]
  · unfold patch
    rw [h]
    simp [handleEntityNotFound, patchUpdates, handleError, effectiveResp]
  · unfold patch
    rw [h]
    simp [handleEntityNotFound, patchUpdates, handleError]
  · unfold destroy
    rw [h]
    simp [handleEntityNotFound, removeEntity, effectiveResp]
  · unfold destroy
    rw [h]
    simp [handleEntityNotFound, removeEntity]

/-- C3 witness: identifier `B` is absent from the one-document store, and
all three handlers deliver a 404 with empty body, leaving the store as is. -/
theorem c3_witness :
    effectiveResp (show' reqMissing [] storeA).1 = some ⟨404, none⟩ ∧
    (show' reqMissing [] storeA).2 = storeA ∧
    effectiveResp (patch reqMissing storeA).1 = some ⟨404, none⟩ ∧
    (patch reqMissing storeA).2 = storeA ∧
    effectiveResp (destroy reqMissing storeA).1 = some ⟨404, none⟩ ∧
    (destroy reqMissing storeA).2 = storeA :=
  c3_not_found_404 reqMissing [] storeA (by rfl)

/-- C4: every failure that is not the not-found case goes through
`handleError`, which writes status 500 (its default) with the error value
as received, unmodified, as the body; in particular a failed patch
application surfaces exactly its error. -/
theorem c4_error_passthrough :
    (∀ (err : JsValue) (log : ResLog),
        handleError none err log = log ++ [⟨500, some err⟩]) ∧
    (∀ (req : Request) (s : Store) (e : Doc) (err : JsValue),
        findById req.id s = some e →
        patchUpdates (patchApplierInput req) (some e) s = .error err →
        (patch req s).1 = [⟨500, some err⟩]) := by
  refine ⟨fun err log => rfl, ?_⟩
  intro req s e err hfind hpu
  unfold patch
  rw [hfind]
  simp [handleEntityNotFound, hpu, handleError, orDefaultStatus]

/-- C4 witness: the unresolvable-path error produced by the patch applier
appears verbatim as the body of the 500 response. -/
theorem c4_witness :
    (patch reqBadPatch storeA).1 =
      [⟨500, some (.vStr "OPERATION_PATH_UNRESOLVABLE")⟩] ∧
    handleError none (.vStr "boom") [] = [⟨500, some (.vStr "boom")⟩] :=
  ⟨c4_error_passthrough.2 reqBadPatch storeA docA
      (.vStr "OPERATION_PATH_UNRESOLVABLE") (by rfl) (by rfl),
   c4_error_passthrough.1 (.vStr "boom") []⟩

/-- C6: `destroy` on a present identifier deletes the document and responds
204 with no body; a subsequent `show` on the same identifier finds nothing
and responds 404. -/
theorem c6_destroy_removes (req : Request) (users : List User) (s : Store)
    (e : Doc) (h : findById req.id s = some e) :
    destroy req s = ([⟨204, none⟩], s.filter (fun d => d.id != req.id)) ∧
    findById req.id (destroy req s).2 = none ∧
    effectiveResp (show' req users (destroy req s).2).1 = some ⟨404, none⟩ := by
  have hid : e.id = req.id := findById_some_id h
  have hdes : destroy req s = ([⟨204, none⟩], s.filter (fun d => d.id != req.id)) := by
    unfold destroy
    rw [h]
    simp [handleEntityNotFound, removeEntity, hid]
  have hnone : findById req.id (destroy req s).2 = none := by
    rw [hdes]
    exact findById_filter_ne_self req.id s
  refine ⟨hdes, hnone, ?_⟩
  unfold show'
  rw [hnone]
  simp [handleEntityNotFound, respondWithResult, effectiveResp]

/-- C6 witness: destroying the stored document `A` yields a 204 with no
body, and a subsequent `show` of `A` yields a 404. -/
theorem c6_witness :
    destroy reqA storeA = ([⟨204, none⟩], []) ∧
    findById "A" (destroy reqA storeA).2 = none ∧
    effectiveResp (show' reqA [] (destroy reqA storeA).2).1 = some ⟨404, none⟩ := by
  have h := c6_destroy_removes reqA [] storeA docA (by rfl)
  exact ⟨h.1, h.2.1, h.2.2⟩

/-- The status codes the spec allows this module to produce. -/
def allowedStatus (r : Response) : Prop :=
  r.status = 200 ∨ r.status = 201 ∨ r.status = 204 ∨ r.status = 404 ∨ r.status = 500

theorem upsert_log (req : Request) (s : Store) :
    (upsert req s).1 =
      [⟨200, some (docToJson ⟨req.id, updateFields (upsertUpdateBody req)⟩)⟩] := by
  unfold upsert findOneAndUpdate
  by_cases h : (findById req.id s).isSome
  · simp [h, respondWithResult, jsTruthy, docToJson, orDefaultStatus]
  · simp [h, respondWithResult, jsTruthy, docToJson, orDefaultStatus]

theorem show_log_shape (req : Request) (users : List User) (s : Store) :
    (show' req users s).1 = [⟨404, none⟩] ∨
    (∃ b, (show' req users s).1 = [⟨200, some b⟩]) := by
  unfold show'
  cases h : findById req.id s with
  | none =>
    left
    simp [handleEntityNotFound, respondWithResult]
  | some e =>
    right
    refine ⟨docToJson (popParticipants users (popHost users e)), ?_⟩
    simp [handleEntityNotFound, respondWithResult, docToJson, jsTruthy, orDefaultStatus]

theorem patch_log_shape (req : Request) (s : Store) :
    (patch req s).1 = [⟨404, none⟩, ⟨500, some (.vStr "TypeError")⟩] ∨
    (∃ err, (patch req s).1 = [⟨500, some err⟩]) ∨
    (∃ b, (patch req s).1 = [⟨200, some b⟩]) ∨
    (patch req s).1 = [] := by
  unfold patch
  cases h : findById req.id s with
  | none =>
    left
    simp [handleEntityNotFound, patchUpdates, handleError, orDefaultStatus]
  | some e =>
    cases hpu : patchUpdates (patchApplierInput req) (some e) s with
    | error err =>
      right; left
      exact ⟨err, by simp [handleEntityNotFound, hpu, handleError, orDefaultStatus]⟩
    | ok pr =>
      obtain ⟨e2, s2⟩ := pr
      cases e2 with
      | none =>
        right; right; right
        simp [handleEntityNotFound, hpu, respondWithResult]
      | some b =>
        by_cases hb : jsTruthy b = true
        · right; right; left
          exact ⟨b, by simp [handleEntityNotFound, hpu, respondWithResult, hb, orDefaultStatus]⟩
        · right; right; right
          simp [handleEntityNotFound, hpu, respondWithResult, hb]

theorem destroy_log_shape (req : Request) (s : Store) :
    (destroy req s).1 = [⟨404, none⟩] ∨ (destroy req s).1 = [⟨204, none⟩] := by
  unfold destroy
  cases h : findById req.id s with
  | none =>
    left
    simp [handleEntityNotFound, removeEntity]
  | some e =>
    right
    simp [handleEntityNotFound, removeEntity]

/-- C5: across all nine handlers, every status code ever written to the
response is one of 200, 201, 204, 404 or 500. -/
theorem c5_status_codes (req : Request) (users : List User) (s : Store)
    (freshId : String) (r : Response) :
    (r ∈ (index req users s).1 → allowedStatus r) ∧
    (r ∈ (show' req users s).1 → allowedStatus r) ∧
    (r ∈ (create req freshId s).1 → allowedStatus r) ∧
    (r ∈ (upsert req s).1 → allowedStatus r) ∧
    (r ∈ (patch req s).1 → allowedStatus r) ∧
    (r ∈ (destroy req s).1 → allowedStatus r) ∧
    (r ∈ (search req users s).1 → allowedStatus r) ∧
    (r ∈ (hosting req users s).1 → allowedStatus r) ∧
    (r ∈ (going req users s).1 → allowedStatus r) ∧
    (r ∈ (favorite req users s).1 → allowedStatus r) := by
  refine ⟨?_, ?_, ?_, ?_, ?_, ?_, ?_, ?_, ?_, ?_⟩
  · intro hr
    simp [index, respondWithResult, jsTruthy, orDefaultStatus] at hr
    rw [hr]
    exact Or.inl rfl
  · intro hr
    rcases show_log_shape req users s with h | ⟨b, h⟩ <;> rw [h] at hr <;>
      simp only [List.mem_singleton] at hr <;> rw [hr]
    · exact Or.inr (Or.inr (Or.inr (Or.inl rfl)))
    · exact Or.inl rfl
  · intro hr
    simp [create, respondWithResult, jsTruthy, docToJson, orDefaultStatus] at hr
    rw [hr]
    exact Or.inr (Or.inl rfl)
  · intro hr
    rw [upsert_log req s] at hr
    simp only [List.mem_singleton] at hr
    rw [hr]
    exact Or.inl rfl
  · intro hr
    rcases patch_log_shape req s with h | ⟨err, h⟩ | ⟨b, h⟩ | h <;> rw [h] at hr
    · rcases List.mem_pair.mp hr with h4 | h5
      · rw [h4]; exact Or.inr (Or.inr (Or.inr (Or.inl rfl)))
      · rw [h5]; exact Or.inr (Or.inr (Or.inr (Or.inr rfl)))
    · simp only [List.mem_singleton] at hr
      rw [hr]; exact Or.inr (Or.inr (Or.inr (Or.inr rfl)))
    · simp only [List.mem_singleton] at hr
      rw [hr]; exact Or.inl rfl
    · simp at hr
  · intro hr
    rcases destroy_log_shape req s with h | h <;> rw [h] at hr <;>
      simp only [List.mem_singleton] at hr <;> rw [hr]
    · exact Or.inr (Or.inr (Or.inr (Or.inl rfl)))
    · exact Or.inr (Or.inr (Or.inl rfl))
  · intro hr
    simp [search, respondWithResult, jsTruthy, orDefaultStatus] at hr
    rw [hr]
    exact Or.inl rfl
  · intro hr
    simp [hosting, respondWithResult, jsTruthy, orDefaultStatus] at hr
    rw [hr]
    exact Or.inl rfl
  · intro hr
    simp [going, respondWithResult, jsTruthy, orDefaultStatus] at hr
    rw [hr]
    exact Or.inl rfl
  · intro hr
    simp [favorite, respondWithResult, jsTruthy, orDefaultStatus] at hr
    rw [hr]
    exact Or.inl rfl

/-- C5 witness: the 404 response written by `destroy` on a missing
identifier has an allowed status code. -/
theorem c5_witness : allowedStatus ⟨404, none⟩ :=
  (c5_status_codes reqMissing [] storeA "F" ⟨404, none⟩).2.2.2.2.2.1
    (List.mem_singleton.mpr rfl)

/-- C10: `create` hands the request body to the store insert unchanged — no
identifier-stripping or field omission — so a client-supplied string `_id`
becomes the created document's identifier and every other submitted field
reaches the stored document exactly as submitted. -/
theorem c10_create_passthrough :
    (∀ (req : Request) (freshId : String) (s : Store),
        create req freshId s =
          ([⟨201, some (docToJson (storeCreate req.body freshId s).1)⟩],
           (storeCreate req.body freshId s).2)) ∧
    (∀ (body : JsValue) (freshId : String) (s : Store) (x : String),
        getProp body "_id" = some (.vStr x) →
        (storeCreate body freshId s).1.id = x) ∧
    (∀ (body : JsValue) (freshId : String) (s : Store) (k : String),
        k ≠ "_id" →
        getProp (docToJson (storeCreate body freshId s).1) k = getProp body k) := by
  refine ⟨?_, ?_, ?_⟩
  · intro req freshId s
    simp [create, respondWithResult, jsTruthy, docToJson, orDefaultStatus]
  · intro body freshId s x h
    simp [storeCreate, h]
  · intro body freshId s k hk
    have hhead : (("_id" : String) == k) = false := by
      simpa [beq_eq_false_iff_ne] using fun h => hk h.symm
    cases body with
    | vObj fs =>
      simp only [storeCreate, docToJson, updateFields, objFields, getProp]
      rw [List.find?_cons_of_neg _ (by simp [hhead])]
      rw [find?_key_filter_ne fs hk]
    | vNull =>
      simp only [storeCreate, docToJson, updateFields, objFields, getProp,
        List.filter_nil]
      rw [List.find?_cons_of_neg _ (by simp [hhead])]
      rfl
    | vBool b =>
      simp only [storeCreate, docToJson, updateFields, objFields, getProp,
        List.filter_nil]
      rw [List.find?_cons_of_neg _ (by simp [hhead])]
      rfl
    | vNum n =>
      simp only [storeCreate, docToJson, updateFields, objFields, getProp,
        List.filter_nil]
      rw [List.find?_cons_of_neg _ (by simp [hhead])]
      rfl
    | vStr s' =>
      simp only [storeCreate, docToJson, updateFields, objFields, getProp,
        List.filter_nil]
      rw [List.find?_cons_of_neg _ (by simp [hhead])]
      rfl
    | vArr xs =>
      simp only [storeCreate, docToJson, updateFields, objFields, getProp,
        List.filter_nil]
      rw [List.find?_cons_of_neg _ (by simp [hhead])]
      rfl

/-- C10 witness: a creation payload with `_id: "z"` produces a document
whose identifier is `z` and whose `name` field is the submitted one. -/
theorem c10_witness :
    (storeCreate (.vObj [("_id", .vStr "z"), ("name", .vStr "n")]) "F" []).1.id = "z" ∧
    getProp (docToJson (storeCreate (.vObj [("_id", .vStr "z"), ("name", .vStr "n")]) "F" []).1)
      "name" = getProp (.vObj [("_id", .vStr "z"), ("name", .vStr "n")]) "name" :=
  ⟨c10_create_passthrough.2.1 (.vObj [("_id", .vStr "z"), ("name", .vStr "n")]) "F" [] "z" (by rfl),
   c10_create_passthrough.2.2 (.vObj [("_id", .vStr "z"), ("name", .vStr "n")]) "F" [] "name"
     (by decide)⟩

/-- C1 counterexample: on the one-document store holding `A` (name "old"),
`patch` at URL identifier `A` with body `{_id: "other", name: "x"}` does
NOT update document `A` (its name stays "old", not the submitted "x") and
responds 500 rather than success — refuting the claim's assertion that
such a `patch` "still updates the document with identifier A". -/
theorem c1_counterexample :
    nameOf (findById "A" (patch reqOther storeA).2) = "old" ∧
    "old" ≠ "x" ∧
    effectiveStatus (patch reqOther storeA).1 = some 500 := by
  refine ⟨by rfl, by decide, by rfl⟩

/-- C1 amended: a truthy client-supplied `_id` in the body never changes
the resource's actual identifier. For `upsert` on URL identifier A the
stripped body still updates-or-creates document A and every other
identifier's document is untouched (so nothing is created or renamed to
"other"), and the handler behaves exactly as if the body had its `_id`
removed; for `patch` such a body is an object, not an operation list, so
patch application fails and the store is left entirely unchanged. -/
theorem c1_identifier_immutable (req : Request) (s : Store) (v : JsValue)
    (hget : getProp req.body "_id" = some v) (htruthy : jsTruthy v = true) :
    (∀ i, i ≠ req.id → findById i (upsert req s).2 = findById i s) ∧
    findById req.id (upsert req s).2 =
      some ⟨req.id, updateFields (stripId req.body)⟩ ∧
    upsert req s =
      upsert ⟨req.id, req.text, req.host, req.participant, req.user,
        deleteProp req.body "_id"⟩ s ∧
    (patch req s).2 = s := by
  obtain ⟨fs, hbody⟩ := getProp_some_obj hget
  have htr : optTruthy (getProp req.body "_id") = true := by
    rw [hget]
    exact htruthy
  have hstrip : stripId req.body = deleteProp req.body "_id" := by
    unfold stripId
    rw [if_pos htr]
  refine ⟨?_, ?_, ?_, ?_⟩
  · intro i hne
    unfold upsert upsertUpdateBody findOneAndUpdate
    by_cases h : (findById req.id s).isSome
    · rw [if_pos h]
      exact findById_map_replace_ne s hne rfl
    · rw [if_neg h]
      exact findById_append_ne s (fun hc => hne hc.symm)
  · unfold upsert upsertUpdateBody findOneAndUpdate
    by_cases h : (findById req.id s).isSome
    · rw [if_pos h]
      exact findById_map_replace_self s rfl h
    · rw [if_neg h]
      exact findById_append_self s (Option.not_isSome_iff_eq_none.mp h) rfl
  · have hstrip2 : stripId (deleteProp req.body "_id") = deleteProp req.body "_id" := by
      unfold stripId
      rw [hbody]
      rw [if_neg (by rw [getProp_deleteProp_id]; simp [optTruthy])]
    unfold upsert upsertUpdateBody
    rw [hstrip, hstrip2]
  · unfold patch
    have happ : ∀ t, jsonpatchApply t (patchApplierInput req) =
        .error (.vStr "SEQUENCE_NOT_AN_ARRAY") := by
      intro t
      unfold patchApplierInput
      rw [hstrip, hbody]
      rfl
    cases h : findById req.id s with
    | none => simp [handleEntityNotFound, patchUpdates, handleError]
    | some e => simp [handleEntityNotFound, patchUpdates, happ, handleError]

/-- C1 witness: with store `{A ↦ name "old"}` and body
`{_id:"other", name:"x"}`, `upsert` at `A` rewrites document `A` from the
stripped body, leaves identifier "other" absent as before, and behaves as
with the `_id`-free body; `patch` at `A` leaves the store unchanged. -/
theorem c1_witness :
    findById "other" (upsert reqOther storeA).2 = findById "other" storeA ∧
    findById "A" (upsert reqOther storeA).2 =
      some ⟨"A", updateFields (stripId reqOther.body)⟩ ∧
    (patch reqOther storeA).2 = storeA := by
  have h := c1_identifier_immutable reqOther storeA (.vStr "other") (by rfl) (by decide)
  exact ⟨h.1 "other" (by decide), h.2.1, h.2.2.2⟩

end EventApi
